import Mathlib

/-!
Shallow embedding of the Emby-Media-Renamer repository (Python sources
`media_renamer.py`, `monitor.py`, `config.py`) and proofs about it.

All definitions are translated from the source; the regex searches of
`MediaRenamer.extract_media_info` / `extract_episode_number` are modelled as
explicit left-to-right scans over `List Char`, which is what `re.search`
performs for these patterns.  The AI override (`config.ai_enabled`) is
modelled as disabled: every claim under study concerns the deterministic
cascade, which is the code path taken when `ai_enabled` is false.

Unicode character classes: Python's `\d` (Unicode decimal digit) and `\s`
(Unicode whitespace) are modelled by the ASCII `Char.isDigit` /
`Char.isWhitespace`; the names this program manipulates use ASCII digits and
spaces, and every concrete input evaluated below does.  Python's `\w` is
modelled as ASCII alphanumeric, underscore, or a CJK unified ideograph
(U+4E00–U+9FFF), which covers the word characters occurring in this domain.
-/

namespace EmbyRenamer

/-- ASCII decimal digit, model of `\d` in the source's regexes. -/
def isDig (c : Char) : Bool := c.isDigit

/-- Model of `\w` in the source's regexes (see file comment). -/
def isWordCh (c : Char) : Bool :=
  c.isAlphanum || c == '_' || (0x4E00 ≤ c.toNat && c.toNat ≤ 0x9FFF)

/-- The character class `[\s\.\-_\[\]\(\)\{\}\<\>《》【】]` used by
`extract_media_info` to strip separator runs (media_renamer.py lines 127,
130, 134).  Note that it does NOT contain the full-width parentheses
`（`/`）` used by the rename planner. -/
def isSep (c : Char) : Bool :=
  c.isWhitespace || c == '.' || c == '-' || c == '_' ||
  c == '[' || c == ']' || c == '(' || c == ')' ||
  c == '{' || c == '}' || c == '<' || c == '>' ||
  c == '《' || c == '》' || c == '【' || c == '】'

/-- Python `str.strip()`: remove leading and trailing whitespace. -/
def pyStrip (l : List Char) : List Char :=
  ((l.dropWhile Char.isWhitespace).reverse.dropWhile Char.isWhitespace).reverse

/-- `re.sub(r'[seps]*$', '', s)`: drop the maximal trailing run of
separator characters. -/
def rstripSeps (l : List Char) : List Char :=
  (l.reverse.dropWhile isSep).reverse

/-- Match of `(19|20)\d{2}` anchored at the start of `l`; returns the four
matched characters (the year string, `group(0)`). -/
def yearAt : List Char → Option (List Char)
  | c1 :: c2 :: c3 :: c4 :: _ =>
    if ((c1 == '1' && c2 == '9') || (c1 == '2' && c2 == '0')) &&
        isDig c3 && isDig c4 then
      some [c1, c2, c3, c4]
    else none
  | _ => none

/-- `re.search(r'(19|20)\d{2}', name)` (media_renamer.py line 117): leftmost
match, returning `(match.start(), match.group(0))`. -/
def searchYearAux (i : Nat) : List Char → Option (Nat × List Char)
  | [] => none
  | c :: rest =>
    match yearAt (c :: rest) with
    | some ds => some (i, ds)
    | none => searchYearAux (i + 1) rest

def searchYear (l : List Char) : Option (Nat × List Char) := searchYearAux 0 l

/-- Greedy `\d{1,2}` anchored at the start: up to two leading digits,
returning them and the rest.  Fails on zero digits. -/
def digits12 : List Char → Option (List Char × List Char)
  | c1 :: c2 :: rest =>
    if isDig c1 then
      if isDig c2 then some ([c1, c2], rest) else some ([c1], c2 :: rest)
    else none
  | [c1] => if isDig c1 then some ([c1], []) else none
  | [] => none

/-- Numeric value of a digit string (what Python `int` returns on it). -/
def digVal (ds : List Char) : Nat := ds.foldl (fun a c => a * 10 + (c.toNat - 48)) 0

/-- Match of `[Ss](\d{1,2})` anchored at the start, returning `group(1)`. -/
def seasonTokAt : List Char → Option (List Char)
  | c :: rest =>
    if c == 'S' || c == 's' then
      match digits12 rest with
      | some (ds, _) => some ds
      | none => none
    else none
  | [] => none

/-- Match of `第(\d{1,2})季` (resp. `第(\d{1,2})集` for `kind = '集'`)
anchored at the start, with the regex engine's backtracking: greedy two
digits then the closing character, else one digit then the closing
character. -/
def cjkNumTokAt (close : Char) : List Char → Option (List Char)
  | c :: rest =>
    if c == '第' then
      match rest with
      | d1 :: d2 :: d3 :: _ =>
        if isDig d1 then
          if isDig d2 then
            if d3 == close then some [d1, d2]
            else if d2 == close then some [d1] else none
          else if d2 == close then some [d1] else none
        else none
      | [d1, d2] =>
        if isDig d1 && d2 == close then some [d1] else none
      | _ => none
    else none
  | [] => none

/-- `re.search(r'[Ss](\d{1,2})|第(\d{1,2})季', name)` (line 137): leftmost
match; the returned value is `int(group(1) or group(2))`. -/
def searchSeason : List Char → Option Nat
  | [] => none
  | c :: rest =>
    match seasonTokAt (c :: rest) with
    | some ds => some (digVal ds)
    | none =>
      match cjkNumTokAt '季' (c :: rest) with
      | some ds => some (digVal ds)
      | none => searchSeason rest

/-- `re.search(r'[Ee](\d{1,2})|第(\d{1,2})集', name)` (line 165), episode
strategy 1; value `int(group(1) or group(2))`. -/
def searchEp1 : List Char → Option Nat
  | [] => none
  | c :: rest =>
    match (if c == 'E' || c == 'e' then
             match digits12 rest with
             | some (ds, _) => some ds
             | none => none
           else none) with
    | some ds => some (digVal ds)
    | none =>
      match cjkNumTokAt '集' (c :: rest) with
      | some ds => some (digVal ds)
      | none => searchEp1 rest

/-- Match of `[\[\(（](\d{1,2})[\]\)）]` anchored at the start, with the
engine's backtracking on the greedy digit group. -/
def bracketEpAt : List Char → Option (List Char)
  | c :: rest =>
    if c == '[' || c == '(' || c == '（' then
      match rest with
      | d1 :: d2 :: d3 :: _ =>
        if isDig d1 then
          if isDig d2 then
            if d3 == ']' || d3 == ')' || d3 == '）' then some [d1, d2]
            else if d2 == ']' || d2 == ')' || d2 == '）' then some [d1]
            else none
          else if d2 == ']' || d2 == ')' || d2 == '）' then some [d1]
          else none
        else none
      | [d1, d2] =>
        if isDig d1 && (d2 == ']' || d2 == ')' || d2 == '）') then some [d1]
        else none
      | _ => none
    else none
  | [] => none

/-- `re.search(r'[\[\(（](\d{1,2})[\]\)）]', name)` (line 169), episode
strategy 2. -/
def searchEp2 : List Char → Option Nat
  | [] => none
  | c :: rest =>
    match bracketEpAt (c :: rest) with
    | some ds => some (digVal ds)
    | none => searchEp2 rest

/-- First `[Ss](\d{1,2})` match in the name, returning the digit string
`group(1)` (line 173, used to build strategy 3's pattern). -/
def searchSeasonStr : List Char → Option (List Char)
  | [] => none
  | c :: rest =>
    match seasonTokAt (c :: rest) with
    | some ds => some ds
    | none => searchSeasonStr rest

/-- `l` begins with `pre` and the rest is returned. -/
def stripPre : List Char → List Char → Option (List Char)
  | [], l => some l
  | _ :: _, [] => none
  | p :: ps, c :: cs => if c == p then stripPre ps cs else none

/-- Match of `[Ss]<season_str>[\. _-](\d{1,2})` anchored at the start
(line 176, the dynamically built strategy-3 pattern). -/
def seasonDotEpAt (sstr : List Char) : List Char → Option (List Char)
  | c :: rest =>
    if c == 'S' || c == 's' then
      match stripPre sstr rest with
      | some rest2 =>
        match rest2 with
        | sep :: rest3 =>
          if sep == '.' || sep == ' ' || sep == '_' || sep == '-' then
            match digits12 rest3 with
            | some (ds, _) => some ds
            | none => none
          else none
        | [] => none
      | none => none
    else none
  | [] => none

/-- `re.search` of the strategy-3 pattern over the whole name. -/
def searchSeasonDotEp (sstr : List Char) : List Char → Option Nat
  | [] => none
  | c :: rest =>
    match seasonDotEpAt sstr (c :: rest) with
    | some ds => some (digVal ds)
    | none => searchSeasonDotEp sstr rest

/-- `re.search(r'(?<!\d)(\d{2})(?=\.\w+$)', name)` (line 180), episode
strategy 4: a two-digit number not preceded by a digit and followed by a
dot plus word characters running to the end of the string.  `prev` is the
character preceding the current scan position (none at the start). -/
def trailingEpAt : List Char → Option (List Char)
  | d1 :: d2 :: dot :: w1 :: rest =>
    if isDig d1 && isDig d2 && dot == '.' && isWordCh w1 &&
        (w1 :: rest).all isWordCh then
      some [d1, d2]
    else none
  | _ => none

def searchEp4Aux (prev : Option Char) : List Char → Option Nat
  | [] => none
  | c :: rest =>
    match (if (match prev with | some p => !isDig p | none => true) then
             trailingEpAt (c :: rest)
           else none) with
    | some ds => some (digVal ds)
    | none => searchEp4Aux (some c) rest

def searchEp4 (l : List Char) : Option Nat := searchEp4Aux none l

/-- Episode strategy (c) as one function: find the first `[Ss](\d{1,2})`
token and, if present, search for `[Ss]<digits>[\. _-](\d{1,2})`
(media_renamer.py lines 172-176). -/
def searchEp3 (l : List Char) : Option Nat :=
  match searchSeasonStr l with
  | some sstr => searchSeasonDotEp sstr l
  | none => none

/-- `MediaRenamer.extract_episode_number` (media_renamer.py lines 162-188):
four strategies tried in order, first match wins.  The `int(...)`
conversion never fails on the matched digit groups, so the
`try/except` around it is the identity. -/
def extract_episode_number (l : List Char) : Option Nat :=
  match searchEp1 l with
  | some v => some v
  | none =>
    match searchEp2 l with
    | some v => some v
    | none =>
      match searchEp3 l with
      | some v => some v
      | none => searchEp4 l

/-- Match of `(1080[pP]|720[pP]|4[kK]|BluRay|WEB-DL)` anchored at the start
(line 133's token set), returning the matched characters.  The five
alternatives begin with pairwise distinct characters, so the regex
alternation is a plain case split. -/
def relTagAt : List Char → Option (List Char)
  | '1' :: '0' :: '8' :: '0' :: p :: _ =>
    if p == 'p' || p == 'P' then some ['1','0','8','0',p] else none
  | '7' :: '2' :: '0' :: p :: _ =>
    if p == 'p' || p == 'P' then some ['7','2','0',p] else none
  | '4' :: k :: _ =>
    if k == 'k' || k == 'K' then some ['4',k] else none
  | 'B' :: 'l' :: 'u' :: 'R' :: 'a' :: 'y' :: _ => some ['B','l','u','R','a','y']
  | 'W' :: 'E' :: 'B' :: '-' :: 'D' :: 'L' :: _ => some ['W','E','B','-','D','L']
  | _ => none

/-- Position of the leftmost match of
`(1080[pP]|720[pP]|4[kK]|BluRay|WEB-DL)` (for line 133's
`re.sub(r'(...).*$', '', name)`, which deletes from that position to the
end of the string). -/
def searchRelTagPosAux (i : Nat) : List Char → Option Nat
  | [] => none
  | c :: rest =>
    match relTagAt (c :: rest) with
    | some _ => some i
    | none => searchRelTagPosAux (i + 1) rest

def searchRelTagPos (l : List Char) : Option Nat := searchRelTagPosAux 0 l

/-- Match of `(1080[pP]|720[pP]|4[kK]|2160[pP]|UHD)` anchored at the start
(line 143), returning the matched characters (`group(1)`).  Again the
alternatives begin with pairwise distinct characters. -/
def resolutionAt : List Char → Option (List Char)
  | '1' :: '0' :: '8' :: '0' :: p :: _ =>
    if p == 'p' || p == 'P' then some ['1','0','8','0',p] else none
  | '7' :: '2' :: '0' :: p :: _ =>
    if p == 'p' || p == 'P' then some ['7','2','0',p] else none
  | '4' :: k :: _ =>
    if k == 'k' || k == 'K' then some ['4',k] else none
  | '2' :: '1' :: '6' :: '0' :: p :: _ =>
    if p == 'p' || p == 'P' then some ['2','1','6','0',p] else none
  | 'U' :: 'H' :: 'D' :: _ => some ['U','H','D']
  | _ => none

def searchResolution : List Char → Option (List Char)
  | [] => none
  | c :: rest =>
    match resolutionAt (c :: rest) with
    | some m => some m
    | none => searchResolution rest

/-- Title in the no-year branch (lines 133-134):
`re.sub(r'(1080[pP]|720[pP]|4[kK]|BluRay|WEB-DL).*$', '', name).strip()`
followed by stripping the trailing separator run. -/
def titleNoYear (l : List Char) : List Char :=
  let cut := match searchRelTagPos l with
    | some i => l.take i
    | none => l
  rstripSeps (pyStrip cut)

/-- Title in the year-at-position-0 branch (line 130):
`re.sub(r'^\d{4}[seps]*', '', name).strip()`. -/
def titleYearAtStart (l : List Char) : List Char :=
  match l with
  | c1 :: c2 :: c3 :: c4 :: rest =>
    if isDig c1 && isDig c2 && isDig c3 && isDig c4 then
      pyStrip (rest.dropWhile isSep)
    else pyStrip l
  | _ => pyStrip l

/-- The title computed by `extract_media_info` (lines 120-134). -/
def extractTitle (l : List Char) : List Char :=
  match searchYear l with
  | some (pos, _) =>
    if 0 < pos then rstripSeps (pyStrip (l.take pos))
    else titleYearAtStart l
  | none => titleNoYear l

/-- `MediaInfo` (media_renamer.py lines 14-22).  `type` is one of
`"movie"`, `"tv"`, `"unknown"`; the dataclass default is `"unknown"`. -/
structure MediaInfo where
  title : String
  year : String
  type : String
  season : Option Nat
  episode : Option Nat
  resolution : Option String
deriving DecidableEq, Repr

/-- Python truthiness of an optional int (`if episode_num:` treats both
`None` and `0` as false). -/
def pyTruthy : Option Nat → Bool
  | none => false
  | some n => n != 0

/-- `MediaRenamer.extract_media_info` (lines 108-160) with `ai_enabled`
false, so the deterministic cascade runs. -/
def extract_media_info (name : String) : Option MediaInfo :=
  let l := name.data
  let yearOpt := searchYear l
  let title := extractTitle l
  let seasonOpt := searchSeason l
  let season_num := match seasonOpt with | some n => n | none => 1
  let episode_num := extract_episode_number l
  let resolution := (searchResolution l).map String.mk
  let media_type := if seasonOpt.isSome || pyTruthy episode_num then "tv" else "movie"
  if title ≠ [] ∧ (yearOpt.isSome ∨ media_type = "tv") then
    some { title := String.mk title
           year := match yearOpt with | some (_, ds) => String.mk ds | none => "未知"
           type := media_type
           season := if media_type = "tv" then some season_num else none
           episode := episode_num
           resolution := resolution }
  else none

/-! ## Path helpers (`os.path` on POSIX, as used by the source) -/

/-- Index of the last occurrence of `c` in `l` (`str.rfind`), if any. -/
def lastIdx (c : Char) : List Char → Option Nat
  | [] => none
  | a :: l =>
    match lastIdx c l with
    | some i => some (i + 1)
    | none => if a == c then some 0 else none

/-- `os.path.splitext` (genericpath._splitext with `sep = '/'`): split at the
last dot, provided it lies after the last path separator and some character
between them is not a dot (so leading dots of the base name never start an
extension). -/
def splitextList (p : List Char) : List Char × List Char :=
  match lastIdx '.' p with
  | none => (p, [])
  | some di =>
    let fi : Nat := match lastIdx '/' p with | none => 0 | some s => s + 1
    if fi ≤ di ∧ ((p.drop fi).take (di - fi)).any (fun c => c != '.') then
      (p.take di, p.drop di)
    else (p, [])

def splitext (p : String) : String × String :=
  let r := splitextList p.data
  (String.mk r.1, String.mk r.2)

/-- `os.path.basename` on POSIX: everything after the last `'/'`. -/
def basenameList (p : List Char) : List Char :=
  match lastIdx '/' p with
  | none => p
  | some s => p.drop (s + 1)

def basename (p : String) : String := String.mk (basenameList p.data)

/-- `os.path.dirname` on POSIX: `p[:rfind('/')+1]`, with trailing slashes
stripped unless the head is all slashes. -/
def dirnameList (p : List Char) : List Char :=
  match lastIdx '/' p with
  | none => []
  | some s =>
    let head := p.take (s + 1)
    if head ≠ [] ∧ head.any (fun c => c != '/') then
      (head.reverse.dropWhile (fun c => c == '/')).reverse
    else head

def dirname (p : String) : String := String.mk (dirnameList p.data)

/-- Python `str.lower()` (ASCII range, which covers the configured
extension allow-list). -/
def pyLower (s : String) : String := String.mk (s.data.map Char.toLower)

/-- `os.path.join(a, b)` on POSIX for the two-argument form used by the
source. -/
def joinPath (a b : String) : String :=
  if b.data.head? = some '/' then b
  else if a = "" ∨ a.data.getLast? = some '/' then a ++ b
  else a ++ "/" ++ b

/-! ## Rename planner and executor (`rename_file` / `rename_directory`,
with `ai_enabled` false so the standard naming format is used).

Filesystem effects are modelled explicitly: `exs : String → Bool` is
`os.path.exists`, and a boolean oracle stands for the success of each
`os.rename` call (`true` = the call returns, `false` = it raises).  Each
executor returns the resulting path together with a flag recording whether
`os.rename` was invoked (and succeeded). -/

/-- Python `str(n).zfill(w)` for a nonnegative integer rendering. -/
def pyZfill (w : Nat) (s : String) : String :=
  if s.length ≥ w then s
  else String.mk (List.replicate (w - s.length) '0') ++ s

/-- Python `media_info.season or 1` (`None` and `0` are falsy). -/
def seasonOr1 : Option Nat → Nat
  | none => 1
  | some n => if n = 0 then 1 else n

/-- The resolution tag of line 351:
`f" - [{media_info.resolution}]" if media_info.resolution else ""`.
A non-empty resolution string is truthy; the empty string is falsy, but
`extract_media_info` never produces `some ""` — the code's condition is
modelled as the truthiness test. -/
def resolution_tag (info : MediaInfo) : String :=
  match info.resolution with
  | some r => if r = "" then "" else " - [" ++ r ++ "]"
  | none => ""

/-- The new file name computed by `rename_file` (lines 350-362). -/
def newFilename (info : MediaInfo) (ext : String) : String :=
  if info.type = "movie" then
    info.title ++ "（" ++ info.year ++ "）" ++ resolution_tag info ++ ext
  else
    if pyTruthy info.episode then
      info.title ++ "（" ++ info.year ++ "） - S" ++
        pyZfill 2 (Nat.repr (seasonOr1 info.season)) ++ "E" ++
        pyZfill 2 (Nat.repr ((info.episode).getD 0)) ++
        resolution_tag info ++ ext
    else
      info.title ++ "（" ++ info.year ++ "） - Season " ++
        pyZfill 2 (Nat.repr (seasonOr1 info.season)) ++
        resolution_tag info ++ ext

/-- The new directory name computed by `rename_directory` (line 299). -/
def newDirName (info : MediaInfo) : String :=
  info.title ++ "（" ++ info.year ++ "）"

/-- The rename planner as a pure function of the original name, the
descriptor and the entity kind: directory plans ignore the name, file plans
use its extension (`os.path.splitext(file_path)[1]`, line 336). -/
def planName (name : String) (info : MediaInfo) (isDirectory : Bool) : String :=
  if isDirectory then newDirName info
  else newFilename info (splitext name).2

/-- The `new_path` computed by `rename_file` (lines 364-366):
`os.path.join(os.path.dirname(file_path), new_filename)`. -/
def fileTarget (file_path : String) (info : MediaInfo) : String :=
  joinPath (dirname file_path) (newFilename info (splitext file_path).2)

/-- The `new_path` computed by `rename_directory` (lines 301-303). -/
def dirTarget (directory_path : String) (info : MediaInfo) : String :=
  joinPath (dirname directory_path) (newDirName info)

/-- `MediaRenamer.rename_file` (lines 333-379), `ai_enabled` false.
`renameOk` models whether the single `os.rename` call succeeds; the
returned flag records whether a rename was performed. -/
def rename_file (exs : String → Bool) (renameOk : Bool)
    (file_path : String) (info : MediaInfo) : String × Bool :=
  let new_path := fileTarget file_path info
  if file_path = new_path ∨ exs new_path then (file_path, false)
  else if renameOk then (new_path, true)
  else (file_path, false)

/-- The retry loop of `rename_directory` (lines 312-328).  Each attempt is a
pair `(sourceExists, renameOk)`: when the source vanished the attempt
sleeps and continues; when `os.rename` raises on the last attempt the
exception propagates to the outer handler, which returns the original
path; if the loop exhausts its attempts the function falls through to
`return directory_path`. -/
def renameDirLoop (path new_path : String) : List (Bool × Bool) → String × Bool
  | [] => (path, false)
  | (srcExists, ok) :: rest =>
    if !srcExists then renameDirLoop path new_path rest
    else if ok then (new_path, true)
    else if rest.isEmpty then (path, false)
    else renameDirLoop path new_path rest

/-- `MediaRenamer.rename_directory` (lines 282-331), `ai_enabled` false,
with `max_retries = 3` attempts driven by the oracle pairs. -/
def rename_directory (exs : String → Bool) (o1 o2 o3 : Bool × Bool)
    (directory_path : String) (info : MediaInfo) : String × Bool :=
  let new_path := dirTarget directory_path info
  if directory_path = new_path ∨ exs new_path then (directory_path, false)
  else renameDirLoop directory_path new_path [o1, o2, o3]

/-! ## Classification entry points (`process_directory` / `process_file`) -/

/-- The excluded directory names of `process_directory` (line 59). -/
def excluded_dirs : List String :=
  ["电影", "电视剧", "动漫", "综艺", "纪录片", "Movies", "TV", "Anime", "Shows"]

/-- `MediaRenamer.process_directory` (lines 50-71).  The result pairs the
returned `Optional[str]` with the performed-rename flag. -/
def process_directory (exs : String → Bool) (o1 o2 o3 : Bool × Bool)
    (directory_path : String) : Option String × Bool :=
  if !exs directory_path then (none, false)
  else
    let dir_name := basename directory_path
    if dir_name ∈ excluded_dirs then (some directory_path, false)
    else
      match extract_media_info dir_name with
      | some info =>
        let r := rename_directory exs o1 o2 o3 directory_path info
        (some r.1, r.2)
      | none => (some directory_path, false)

/-- `MediaRenamer.process_file` (lines 73-106).  `media_exts` is the
configured allow-list (`config.media_exts`). -/
def process_file (exs : String → Bool) (renameOk : Bool)
    (media_exts : List String) (file_path directory : String) :
    Option String × Bool :=
  if !exs file_path then (none, false)
  else
    let filename := basename file_path
    let ext := (splitext filename).2
    if pyLower ext ∉ media_exts then (none, false)
    else
      match extract_media_info filename with
      | some info =>
        let r := rename_file exs renameOk file_path info
        (some r.1, r.2)
      | none =>
        let dir_name := basename directory
        match extract_media_info dir_name with
        | some dir_info =>
          let episode_num := extract_episode_number filename.data
          let info :=
            if pyTruthy episode_num then
              { dir_info with episode := episode_num, type := "tv" }
            else dir_info
          let r := rename_file exs renameOk file_path info
          (some r.1, r.2)
        | none => (some file_path, false)

/-! ## Event debouncer (`MediaFileHandler`, monitor.py)

The pending set `event_queue : Dict[str, {...}]` is modelled as an
association list with unique keys; `on_created` replaces the whole entry
for a path (monitor.py lines 37-45), and each pass of `_process_queue`
(one "tick", lines 52-60) removes and releases every entry whose timestamp
is at least `2.0` seconds old.  A release is the
pair `(path, is_directory)` handed to the classify-and-rename pipeline;
the dispatch on `is_directory` happens at lines 67-73.  Timestamps are
modelled as integers (the comparison logic uses only ordered subtraction,
so any time unit works). -/

/-- One pending entry: `(path, is_directory, timestamp)`. -/
abbrev DEntry := String × Bool × ℤ

abbrev DState := List DEntry

/-- `MediaFileHandler.on_created` at time `t`: the dict assignment
`event_queue[path] = {...}` replaces any previous entry for `path`. -/
def on_created (s : DState) (path : String) (isDir : Bool) (t : ℤ) : DState :=
  (path, isDir, t) :: s.filter (fun e => e.1 != path)

/-- Entry lookup (`event_queue.get(path)`). -/
def dlookup (p : String) (s : DState) : Option (Bool × ℤ) :=
  (s.find? (fun e => e.1 == p)).map (fun e => e.2)

/-- Whether an entry is due at tick time `t`
(`current_time - event_info['timestamp'] >= 2.0`). -/
def due (t : ℤ) (e : DEntry) : Bool := 2 ≤ t - e.2.2

/-- One pass of the scan in `_process_queue` at time `t`: due entries are
deleted from the queue (inside the lock, atomically with the scan) and
returned as the released batch. -/
def tickStep (s : DState) (t : ℤ) : DState × List (String × Bool) :=
  (s.filter (fun e => !due t e), (s.filter (due t)).map (fun e => (e.1, e.2.1)))

/-- Events seen by the debouncer: a creation notification (with the
observed `is_directory` flag and arrival time) or one scan pass of the
queue processor at a tick time. -/
inductive DEvent where
  | notify (path : String) (isDir : Bool) (t : ℤ)
  | tick (t : ℤ)
deriving DecidableEq, Repr

/-- Run a sequence of events; the output collects every release tagged with
the time of the tick that produced it. -/
def runD : DState → List DEvent → DState × List (ℤ × String × Bool)
  | s, [] => (s, [])
  | s, DEvent.notify p d t :: rest => runD (on_created s p d t) rest
  | s, DEvent.tick t :: rest =>
    let step := tickStep s t
    let r := runD step.1 rest
    (r.1, step.2.map (fun e => (t, e.1, e.2)) ++ r.2)

/-- Number of releases of path `p` in an output stream. -/
def relCount (p : String) (out : List (ℤ × String × Bool)) : Nat :=
  (out.filter (fun r => r.2.1 == p)).length

/-- Trace predicate, phase after a qualifying release of `p`: no further
notification for `p` arrives. -/
def NoMoreP (p : String) : List DEvent → Bool
  | [] => true
  | DEvent.tick _ :: rest => NoMoreP p rest
  | DEvent.notify q _ _ :: rest => q != p && NoMoreP p rest

/-- Trace predicate, phase in which `p` is pending with latest notification
at time `ts`: re-notifications of `p` reset `ts`; a tick before the
quiescence window elapses keeps waiting; the first tick at or after
`ts + 2` is the release, after which no notification for `p` follows.
A trace satisfying `Quiet` therefore keeps every notification of `p`
inside the quiescence window of its predecessor as observed by the
scanning loop. -/
def Quiet (p : String) (ts : ℤ) : List DEvent → Bool
  | [] => false
  | DEvent.tick t :: rest => if 2 ≤ t - ts then NoMoreP p rest else Quiet p ts rest
  | DEvent.notify q _ t :: rest => if q == p then Quiet p t rest else Quiet p ts rest

/-- Trace predicate, initial phase: `p` not yet notified; some notification
for `p` eventually arrives and the trace then satisfies `Quiet`. -/
def YieldsOne (p : String) : List DEvent → Bool
  | [] => false
  | DEvent.tick _ :: rest => YieldsOne p rest
  | DEvent.notify q _ t :: rest => if q == p then Quiet p t rest else YieldsOne p rest

/-! ## Spec-side definitions

The following definitions transcribe the rename-plan formats of spec.md
§4.3 word for word, to be compared with the code's `newFilename` /
`newDirName`.  `spec02` is the spec's `{...:02d}` rendering. -/

def spec02 (n : Nat) : String := if n < 10 then "0" ++ Nat.repr n else Nat.repr n

/-- Spec §4.3: the optional resolution suffix, "omitted entirely when
absent (not rendered as empty brackets)". -/
def specResSuffix (d : MediaInfo) : String :=
  match d.resolution with
  | some r => " - [" ++ r ++ "]"
  | none => ""

/-- Spec §4.3: directory plan `"{title}（{year}）"`. -/
def specDirPlan (d : MediaInfo) : String := d.title ++ "（" ++ d.year ++ "）"

/-- Spec §4.3: movie file plan `"{title}（{year}）{ - [resolution]?}{ext}"`. -/
def specMoviePlan (d : MediaInfo) (ext : String) : String :=
  d.title ++ "（" ++ d.year ++ "）" ++ specResSuffix d ++ ext

/-- Spec §4.3: TV file plan with known episode, season and episode taken
with the code's truthiness defaults (season `None`/`0` ↦ 1). -/
def specTVEpisodePlan (d : MediaInfo) (ext : String) : String :=
  d.title ++ "（" ++ d.year ++ "） - S" ++ spec02 (seasonOr1 d.season) ++ "E" ++
    spec02 (d.episode.getD 0) ++ specResSuffix d ++ ext

/-- Spec §4.3: TV file plan with unknown episode. -/
def specTVSeasonPlan (d : MediaInfo) (ext : String) : String :=
  d.title ++ "（" ++ d.year ++ "） - Season " ++ spec02 (seasonOr1 d.season) ++
    specResSuffix d ++ ext

/-- Spec §8 / claim C2: a "real 4-digit value" for the year field. -/
def isRealYear (y : String) : Bool :=
  y.data.length == 4 && y.data.all isDig

/-- A string ends in a character that is neither `'.'` nor `'/'` (used to
show that `os.path.splitext` recovers the extension of a planned name). -/
def endsSafe (s : String) : Bool :=
  match s.data.getLast? with
  | some c => c != '.' && c != '/'
  | none => false

/-! # Lemmas -/

theorem pyZfill_repr_eq_spec02 : ∀ n, n < 100 → pyZfill 2 (Nat.repr n) = spec02 n := by
  decide

theorem seasonOr1_lt (s : Option Nat) (hs : ∀ n, s = some n → n < 100) :
    seasonOr1 s < 100 := by
  cases s with
  | none => simp [seasonOr1]
  | some n =>
    have := hs n rfl
    simp only [seasonOr1]
    split <;> omega

theorem resolution_tag_eq_spec (d : MediaInfo) (hres : d.resolution ≠ some "") :
    resolution_tag d = specResSuffix d := by
  cases h : d.resolution with
  | none => simp [resolution_tag, specResSuffix, h]
  | some r =>
    have hr : r ≠ "" := by
      intro h0
      exact hres (h0 ▸ h)
    simp [resolution_tag, specResSuffix, h, hr]

theorem renameDirLoop_cases (path np : String) :
    ∀ atts : List (Bool × Bool),
      renameDirLoop path np atts = (path, false) ∨
      renameDirLoop path np atts = (np, true) := by
  intro atts
  induction atts with
  | nil => exact Or.inl rfl
  | cons a rest ih =>
    obtain ⟨src, ok⟩ := a
    cases src with
    | false => simpa [renameDirLoop] using ih
    | true =>
      cases ok with
      | false =>
        by_cases hr : rest.isEmpty
        · simp [renameDirLoop, hr]
        · simpa [renameDirLoop, hr] using ih
      | true => simp [renameDirLoop]

/-! # Claim theorems -/

/-- C6 (amended): with the AI override disabled the planner produces
exactly the spec §4.3 formats — directory `{title}（{year}）`, movie
`{title}（{year}）{ - [res]?}{ext}`, TV with known (nonzero) episode
`{title}（{year}） - S{s:02d}E{e:02d}{ - [res]?}{ext}`, TV otherwise
`{title}（{year}） - Season {s:02d}{ - [res]?}{ext}` — where the season
rendered is `season or 1` in Python truthiness (both a missing and a `0`
season print as `01`) and a `0` episode counts as unknown; the resolution
suffix is entirely absent when the descriptor has no resolution. -/
theorem c6_planner_formats (d : MediaInfo) (ext : String)
    (hres : d.resolution ≠ some "")
    (hs : ∀ n, d.season = some n → n < 100)
    (he : ∀ n, d.episode = some n → n < 100) :
    newDirName d = specDirPlan d ∧
    (d.type = "movie" → newFilename d ext = specMoviePlan d ext) ∧
    (d.type ≠ "movie" → pyTruthy d.episode = true →
      newFilename d ext = specTVEpisodePlan d ext) ∧
    (d.type ≠ "movie" → pyTruthy d.episode = false →
      newFilename d ext = specTVSeasonPlan d ext) ∧
    (d.resolution = none → resolution_tag d = "") := by
  have htag := resolution_tag_eq_spec d hres
  have hs1 : seasonOr1 d.season < 100 := seasonOr1_lt d.season hs
  refine ⟨rfl, ?_, ?_, ?_, ?_⟩
  · intro hm
    simp [newFilename, specMoviePlan, hm, htag]
  · intro hm hep
    have hez : d.episode.getD 0 < 100 := by
      cases h : d.episode with
      | none => simp
      | some e => simpa using he e h
    simp [newFilename, specTVEpisodePlan, hm, hep, htag,
      pyZfill_repr_eq_spec02 _ hs1, pyZfill_repr_eq_spec02 _ hez]
  · intro hm hep
    simp [newFilename, specTVSeasonPlan, hm, hep, htag,
      pyZfill_repr_eq_spec02 _ hs1]
  · intro h0
    simp [resolution_tag, h0]

/-- Witness for C6 at a concrete TV descriptor with resolution. -/
theorem c6_planner_formats_witness :
    newFilename ⟨"Show", "2020", "tv", some 2, some 5, some "720p"⟩ ".mkv" =
      specTVEpisodePlan ⟨"Show", "2020", "tv", some 2, some 5, some "720p"⟩ ".mkv" :=
  (c6_planner_formats ⟨"Show", "2020", "tv", some 2, some 5, some "720p"⟩ ".mkv"
      (by decide) (fun n h => by cases h; decide) (fun n h => by cases h; decide)).2.2.1
    (by decide) (by decide)

/-- C6 counterexample: the claim's format `S{season:02d}` fails on a valid
TV descriptor whose season is the explicit value 0 (extracted from an
`S00E05` marker): Python's `season or 1` renders `S01`, not `S00`. -/
theorem c6_zero_season_cex :
    newFilename ⟨"Show", "未知", "tv", some 0, some 5, none⟩ ".mkv" =
        "Show（未知） - S01E05.mkv" ∧
      newFilename ⟨"Show", "未知", "tv", some 0, some 5, none⟩ ".mkv" ≠
        "Show（未知） - S00E05.mkv" ∧
      (extract_media_info "Show.S00E05.mkv").map (fun d => d.season) =
        some (some 0) := by
  refine ⟨by decide, by decide, by decide⟩

/-- C7 (confirmed): a directory whose base name is one of the excluded
category folder names is returned unchanged by `process_directory`, with
no rename performed, for every filesystem state and rename oracle. -/
theorem c7_excluded_dirs (exs : String → Bool) (o1 o2 o3 : Bool × Bool)
    (path : String) (hex : exs path = true)
    (hmem : basename path ∈ excluded_dirs) :
    process_directory exs o1 o2 o3 path = (some path, false) := by
  simp [process_directory, hex, hmem]

/-- Witness for C7 on the literal excluded name "Movies". -/
theorem c7_excluded_dirs_witness :
    process_directory (fun _ => true) (true, true) (true, true) (true, true)
      "/media/Movies" = (some "/media/Movies", false) :=
  c7_excluded_dirs (fun _ => true) (true, true) (true, true) (true, true)
    "/media/Movies" rfl (by decide)

/-- C10 (confirmed): `process_file` returns `None` (not the original path)
both for a missing path and for a file whose lowercased extension is not in
the allow-list, while a classification miss on an allow-listed existing
file returns the path unchanged — so callers can tell ignored/missing from
visited-but-not-renamed. -/
theorem c10_process_file_interface (exs : String → Bool) (ok : Bool)
    (exts : List String) (path dir : String) :
    (exs path = false → process_file exs ok exts path dir = (none, false)) ∧
    (exs path = true → pyLower (splitext (basename path)).2 ∉ exts →
      process_file exs ok exts path dir = (none, false)) ∧
    (exs path = true → pyLower (splitext (basename path)).2 ∈ exts →
      extract_media_info (basename path) = none →
      extract_media_info (basename dir) = none →
      process_file exs ok exts path dir = (some path, false)) := by
  refine ⟨?_, ?_, ?_⟩
  · intro h
    simp [process_file, h]
  · intro h hext
    simp [process_file, h, hext]
  · intro h hext hf hd
    simp [process_file, h, hext, hf, hd]

/-- Witness for C10: a missing path, a disallowed extension, and a
patternless allow-listed file. -/
theorem c10_process_file_interface_witness :
    process_file (fun _ => false) true [".mp4"] "/d/a.mp4" "/d" = (none, false) ∧
    process_file (fun _ => true) true [".mp4"] "/d/a.txt" "/d" = (none, false) ∧
    process_file (fun _ => true) true [".txt"]
      "/data/stuff/random_file_with_no_pattern.txt" "/data/stuff" =
      (some "/data/stuff/random_file_with_no_pattern.txt", false) :=
  ⟨(c10_process_file_interface (fun _ => false) true [".mp4"] "/d/a.mp4" "/d").1 rfl,
   (c10_process_file_interface (fun _ => true) true [".mp4"] "/d/a.txt" "/d").2.1 rfl
     (by decide),
   (c10_process_file_interface (fun _ => true) true [".txt"]
       "/data/stuff/random_file_with_no_pattern.txt" "/data/stuff").2.2 rfl
     (by decide) (by decide) (by decide)⟩

/-- C4 (confirmed): the executors never overwrite: when the computed target
equals the source or already exists, no rename happens and the original
path is returned; when the rename fails the original path is returned; a
rename is performed only onto a target that did not exist, and otherwise
the result is exactly the original path (never a partially-renamed state). -/
theorem c4_executor_no_overwrite (exs : String → Bool) (ok : Bool)
    (o1 o2 o3 : Bool × Bool) (path : String) (info : MediaInfo) :
    (fileTarget path info = path ∨ exs (fileTarget path info) = true →
      rename_file exs ok path info = (path, false)) ∧
    (ok = false → rename_file exs ok path info = (path, false)) ∧
    ((rename_file exs ok path info).2 = true →
      exs (fileTarget path info) = false ∧
      (rename_file exs ok path info).1 = fileTarget path info) ∧
    ((rename_file exs ok path info).2 = false →
      (rename_file exs ok path info).1 = path) ∧
    (dirTarget path info = path ∨ exs (dirTarget path info) = true →
      rename_directory exs o1 o2 o3 path info = (path, false)) ∧
    ((rename_directory exs o1 o2 o3 path info).2 = true →
      exs (dirTarget path info) = false ∧
      (rename_directory exs o1 o2 o3 path info).1 = dirTarget path info) ∧
    ((rename_directory exs o1 o2 o3 path info).2 = false →
      (rename_directory exs o1 o2 o3 path info).1 = path) := by
  have hloop := renameDirLoop_cases path (dirTarget path info) [o1, o2, o3]
  have hf : rename_file exs ok path info =
      if path = fileTarget path info ∨ exs (fileTarget path info) = true then
        (path, false)
      else if ok = true then (fileTarget path info, true) else (path, false) := rfl
  have hd : rename_directory exs o1 o2 o3 path info =
      if path = dirTarget path info ∨ exs (dirTarget path info) = true then
        (path, false)
      else renameDirLoop path (dirTarget path info) [o1, o2, o3] := rfl
  refine ⟨?_, ?_, ?_, ?_, ?_, ?_, ?_⟩
  · intro h
    have hc : path = fileTarget path info ∨ exs (fileTarget path info) = true := by
      rcases h with h | h
      · exact Or.inl h.symm
      · exact Or.inr h
    rw [hf, if_pos hc]
  · intro h
    rw [hf]
    by_cases hc : path = fileTarget path info ∨ exs (fileTarget path info) = true
    · rw [if_pos hc]
    · rw [if_neg hc, h]
      simp
  · intro h
    rw [hf] at h ⊢
    by_cases hc : path = fileTarget path info ∨ exs (fileTarget path info) = true
    · rw [if_pos hc] at h
      simp at h
    · rw [if_neg hc] at h ⊢
      by_cases hok : ok = true
      · push_neg at hc
        refine ⟨by simpa using hc.2, ?_⟩
        rw [if_pos hok]
      · rw [if_neg hok] at h
        simp at h
  · intro h
    rw [hf] at h ⊢
    by_cases hc : path = fileTarget path info ∨ exs (fileTarget path info) = true
    · rw [if_pos hc]
    · rw [if_neg hc] at h ⊢
      by_cases hok : ok = true
      · rw [if_pos hok] at h
        simp at h
      · rw [if_neg hok]
  · intro h
    have hc : path = dirTarget path info ∨ exs (dirTarget path info) = true := by
      rcases h with h | h
      · exact Or.inl h.symm
      · exact Or.inr h
    rw [hd, if_pos hc]
  · intro h
    rw [hd] at h ⊢
    by_cases hc : path = dirTarget path info ∨ exs (dirTarget path info) = true
    · rw [if_pos hc] at h
      simp at h
    · rw [if_neg hc] at h ⊢
      rcases hloop with hl | hl <;> rw [hl] at h ⊢
      · simp at h
      · push_neg at hc
        exact ⟨by simpa using hc.2, rfl⟩
  · intro h
    rw [hd] at h ⊢
    by_cases hc : path = dirTarget path info ∨ exs (dirTarget path info) = true
    · rw [if_pos hc]
    · rw [if_neg hc] at h ⊢
      rcases hloop with hl | hl
      · rw [hl]
      · rw [hl] at h
        simp at h

/-- Witness for C4: collision, no-op, and failure cases at concrete paths. -/
theorem c4_executor_no_overwrite_witness :
    rename_file (fun _ => true) true "/d/Hero.2020.mp4"
      ⟨"Hero", "2020", "movie", none, none, none⟩ = ("/d/Hero.2020.mp4", false) ∧
    rename_file (fun _ => false) false "/d/Hero.2020.mp4"
      ⟨"Hero", "2020", "movie", none, none, none⟩ = ("/d/Hero.2020.mp4", false) ∧
    rename_directory (fun _ => true) (true, true) (true, true) (true, true)
      "/d/Hero 2020" ⟨"Hero", "2020", "movie", none, none, none⟩ =
      ("/d/Hero 2020", false) :=
  ⟨(c4_executor_no_overwrite (fun _ => true) true (true, true) (true, true)
      (true, true) "/d/Hero.2020.mp4" ⟨"Hero", "2020", "movie", none, none, none⟩).1
      (Or.inr rfl),
   (c4_executor_no_overwrite (fun _ => false) false (true, true) (true, true)
      (true, true) "/d/Hero.2020.mp4" ⟨"Hero", "2020", "movie", none, none, none⟩).2.1
      rfl,
   (c4_executor_no_overwrite (fun _ => true) true (true, true) (true, true)
      (true, true) "/d/Hero 2020" ⟨"Hero", "2020", "movie", none, none, none⟩).2.2.2.2.1
      (Or.inr rfl)⟩

/-- C3 (confirmed): episode extraction is the four-strategy cascade with
first-match-wins — explicit `E`/`e` or `第N集` marker, then a bracketed
1–2 digit number, then a number following the season token, then a bare
2-digit number before the extension (strategy d only when a–c all fail) —
and `剧名.S01.03.mp4` resolves to season 1, episode 3 via strategy (c). -/
theorem c3_episode_cascade :
    (∀ l : List Char,
      extract_episode_number l =
        (searchEp1 l).orElse fun _ =>
          (searchEp2 l).orElse fun _ =>
            (searchEp3 l).orElse fun _ => searchEp4 l) ∧
    searchEp1 "剧名.S01.03.mp4".data = none ∧
    searchEp2 "剧名.S01.03.mp4".data = none ∧
    searchEp3 "剧名.S01.03.mp4".data = some 3 ∧
    (extract_media_info "剧名.S01.03.mp4").map (fun d => (d.type, d.season, d.episode)) =
      some ("tv", some 1, some 3) := by
  refine ⟨?_, by decide, by decide, by decide, by decide⟩
  intro l
  simp only [extract_episode_number, Option.orElse]
  cases searchEp1 l
  · cases searchEp2 l
    · cases searchEp3 l
      · simp
      · simp
    · simp
  · simp

theorem yearAt_shape (l ds : List Char) (h : yearAt l = some ds) :
    ∃ c1 c2 c3 c4, ds = [c1, c2, c3, c4] ∧
      ((c1 = '1' ∧ c2 = '9') ∨ (c1 = '2' ∧ c2 = '0')) ∧
      isDig c3 = true ∧ isDig c4 = true := by
  rcases l with _ | ⟨c1, _ | ⟨c2, _ | ⟨c3, _ | ⟨c4, rest⟩⟩⟩⟩
  · simp [yearAt] at h
  · simp [yearAt] at h
  · simp [yearAt] at h
  · simp [yearAt] at h
  · simp only [yearAt] at h
    split at h
    · next hcond =>
      simp only [Bool.and_eq_true, Bool.or_eq_true, beq_iff_eq] at hcond
      obtain ⟨⟨h12, h3⟩, h4⟩ := hcond
      refine ⟨c1, c2, c3, c4, ?_, h12, h3, h4⟩
      simpa using h.symm
    · exact absurd h (by simp)

theorem searchYearAux_shape :
    ∀ (l : List Char) (i j : Nat) (ds : List Char),
      searchYearAux i l = some (j, ds) →
      ∃ c1 c2 c3 c4, ds = [c1, c2, c3, c4] ∧
        ((c1 = '1' ∧ c2 = '9') ∨ (c1 = '2' ∧ c2 = '0')) ∧
        isDig c3 = true ∧ isDig c4 = true := by
  intro l
  induction l with
  | nil => intro i j ds h; simp [searchYearAux] at h
  | cons c rest ih =>
    intro i j ds h
    simp only [searchYearAux] at h
    cases hy : yearAt (c :: rest) with
    | some ds2 =>
      rw [hy] at h
      obtain ⟨-, rfl⟩ : i = j ∧ ds2 = ds := by simpa using h
      exact yearAt_shape _ _ hy
    | none =>
      rw [hy] at h
      exact ih _ _ _ h

theorem searchYear_shape (l : List Char) (i : Nat) (ds : List Char)
    (h : searchYear l = some (i, ds)) :
    ∃ c1 c2 c3 c4, ds = [c1, c2, c3, c4] ∧
      ((c1 = '1' ∧ c2 = '9') ∨ (c1 = '2' ∧ c2 = '0')) ∧
      isDig c3 = true ∧ isDig c4 = true :=
  searchYearAux_shape l 0 i ds h

/-- C2 (confirmed): the deterministic cascade returns a descriptor only if
its title is non-empty and either its year is a real 4-digit value (in
fact starting 19 or 20) or its kind is tv; it returns none exactly when
the title is empty or there is neither a year nor any tv evidence; the
`未知` year sentinel occurs only on tv descriptors; and the patternless
name of the spec's example extracts to none and its file is returned
untouched by `process_file`. -/
theorem c2_actionable_invariant :
    (∀ (name : String) (d : MediaInfo), extract_media_info name = some d →
      d.title ≠ "" ∧ (isRealYear d.year = true ∨ d.type = "tv") ∧
      (d.year = "未知" → d.type = "tv")) ∧
    (∀ name : String, extract_media_info name = none ↔
      (extractTitle name.data = [] ∨
        (searchYear name.data = none ∧
          ((searchSeason name.data).isSome ||
            pyTruthy (extract_episode_number name.data)) = false))) ∧
    extract_media_info "random_file_with_no_pattern.txt" = none ∧
    process_file (fun _ => true) true [".txt"]
      "/data/stuff/random_file_with_no_pattern.txt" "/data/stuff" =
      (some "/data/stuff/random_file_with_no_pattern.txt", false) := by
  refine ⟨?_, ?_, by decide, by decide⟩
  · intro name d h
    cases hb : ((searchSeason name.data).isSome ||
        pyTruthy (extract_episode_number name.data)) with
    | true =>
      simp only [extract_media_info, hb, if_true] at h
      split at h
      · next hcond =>
        obtain rfl := Option.some.inj h
        refine ⟨?_, Or.inr rfl, fun _ => rfl⟩
        intro h0
        exact hcond.1 (by simpa using congrArg String.data h0)
      · exact absurd h (by simp)
    | false =>
      simp only [extract_media_info, hb, Bool.false_eq_true, if_false] at h
      split at h
      · next hcond =>
        obtain rfl := Option.some.inj h
        have hys : (searchYear name.data).isSome = true := by
          rcases hcond.2 with hh | hh
          · exact hh
          · exact absurd hh (by decide)
        obtain ⟨p, hy⟩ := Option.isSome_iff_exists.mp hys
        obtain ⟨i, ds⟩ := p
        obtain ⟨c1, c2, c3, c4, rfl, h12, h3, h4⟩ := searchYear_shape _ _ _ hy
        refine ⟨?_, ?_, ?_⟩
        · intro h0
          exact hcond.1 (by simpa using congrArg String.data h0)
        · refine Or.inl ?_
          simp only [hy, isRealYear]
          simp only [isDig] at h3 h4
          rcases h12 with ⟨rfl, rfl⟩ | ⟨rfl, rfl⟩
          · simp [isDig, h3, h4]
          · simp [isDig, h3, h4]
        · intro hyr
          simp only [hy] at hyr
          have := congrArg String.data hyr
          simp at this
      · exact absurd h (by simp)
  · intro name
    cases hb : ((searchSeason name.data).isSome ||
        pyTruthy (extract_episode_number name.data)) with
    | true =>
      by_cases ht : extractTitle name.data = []
      · simp [extract_media_info, hb, ht]
      · simp [extract_media_info, hb, ht]
    | false =>
      by_cases ht : extractTitle name.data = []
      · simp [extract_media_info, hb, ht]
      · cases hy : searchYear name.data with
        | some p => simp [extract_media_info, hb, ht, hy]
        | none => simp [extract_media_info, hb, ht, hy]

/-- Witness for C2's universally quantified parts at concrete names. -/
theorem c2_actionable_invariant_witness :
    (MediaInfo.title ⟨"Hero", "2020", "movie", none, none, none⟩ ≠ "" ∧
      (isRealYear (MediaInfo.year ⟨"Hero", "2020", "movie", none, none, none⟩) = true ∨
        MediaInfo.type ⟨"Hero", "2020", "movie", none, none, none⟩ = "tv") ∧
      (MediaInfo.year ⟨"Hero", "2020", "movie", none, none, none⟩ = "未知" →
        MediaInfo.type ⟨"Hero", "2020", "movie", none, none, none⟩ = "tv")) ∧
    (extract_media_info "no year no pattern here" = none ↔
      (extractTitle "no year no pattern here".data = [] ∨
        (searchYear "no year no pattern here".data = none ∧
          ((searchSeason "no year no pattern here".data).isSome ||
            pyTruthy (extract_episode_number "no year no pattern here".data)) = false))) :=
  ⟨c2_actionable_invariant.1 "Hero.2020.mp4"
      ⟨"Hero", "2020", "movie", none, none, none⟩ (by decide),
   c2_actionable_invariant.2.1 "no year no pattern here"⟩

/-- C9 (amended): the deterministic cascade never returns a descriptor of
kind "unknown": the kind is "tv" exactly when a season marker was found or
the extracted episode number is truthy in Python's sense (present and
nonzero), and "movie" otherwise.  (The claim as stated — tv whenever an
episode number *was found* — fails when the found episode is 0.) -/
theorem c9_kind_never_unknown (name : String) (d : MediaInfo)
    (h : extract_media_info name = some d) :
    d.type ≠ "unknown" ∧ (d.type = "tv" ∨ d.type = "movie") ∧
    (d.type = "tv" ↔
      ((searchSeason name.data).isSome ||
        pyTruthy (extract_episode_number name.data)) = true) := by
  cases hb : ((searchSeason name.data).isSome ||
      pyTruthy (extract_episode_number name.data)) with
  | true =>
    simp only [extract_media_info, hb, if_true] at h
    split at h
    · obtain rfl := Option.some.inj h
      exact ⟨fun h0 => absurd h0 (show ("tv" : String) ≠ "unknown" by decide),
        Or.inl rfl, by simp [hb]⟩
    · exact absurd h (by simp)
  | false =>
    simp only [extract_media_info, hb, Bool.false_eq_true, if_false] at h
    split at h
    · obtain rfl := Option.some.inj h
      refine ⟨fun h0 => absurd h0 (show ("movie" : String) ≠ "unknown" by decide),
        Or.inr rfl, ?_⟩
      constructor
      · intro h0
        exact absurd h0 (show ("movie" : String) ≠ "tv" by decide)
      · intro h0
        simp at h0
    · exact absurd h (by simp)

/-- Witness for C9 at a concrete tv name. -/
theorem c9_kind_never_unknown_witness :
    MediaInfo.type ⟨"剧名.S01.03.mp4", "未知", "tv", some 1, some 3, none⟩ ≠ "unknown" ∧
    (MediaInfo.type ⟨"剧名.S01.03.mp4", "未知", "tv", some 1, some 3, none⟩ = "tv" ∨
      MediaInfo.type ⟨"剧名.S01.03.mp4", "未知", "tv", some 1, some 3, none⟩ = "movie") ∧
    (MediaInfo.type ⟨"剧名.S01.03.mp4", "未知", "tv", some 1, some 3, none⟩ = "tv" ↔
      ((searchSeason "剧名.S01.03.mp4".data).isSome ||
        pyTruthy (extract_episode_number "剧名.S01.03.mp4".data)) = true) :=
  c9_kind_never_unknown "剧名.S01.03.mp4"
    ⟨"剧名.S01.03.mp4", "未知", "tv", some 1, some 3, none⟩ (by decide)

/-- C9 counterexample: on `abc 2020 [00].mp4` an episode number (0, via the
bracket strategy) IS found, yet the returned kind is "movie", because
Python's truthiness treats episode 0 as no episode. -/
theorem c9_zero_episode_cex :
    extract_media_info "abc 2020 [00].mp4" =
        some ⟨"abc", "2020", "movie", none, some 0, none⟩ ∧
      extract_episode_number "abc 2020 [00].mp4".data = some 0 ∧
      (extract_media_info "abc 2020 [00].mp4").map (fun d => d.type) ≠ some "tv" := by
  refine ⟨by decide, by decide, by decide⟩

/-- C8 (amended): the released `is_directory` flag is the one carried by
the MOST RECENT notification for the path, not the first: `on_created`
replaces the whole queue entry, and a tick dispatches on the stored flag. -/
theorem c8_dispatch_last_flag :
    (∀ (s : DState) (p : String) (d : Bool) (t : ℤ) (d' : Bool) (t' : ℤ),
      dlookup p (on_created (on_created s p d t) p d' t') = some (d', t')) ∧
    (∀ (s : DState) (t : ℤ) (p : String) (d : Bool),
      (p, d) ∈ (tickStep s t).2 → ∃ ts, (p, d, ts) ∈ s ∧ 2 ≤ t - ts) := by
  constructor
  · intro s p d t d' t'
    simp [dlookup, on_created, List.find?]
  · intro s t p d h
    simp only [tickStep, List.mem_map, List.mem_filter] at h
    obtain ⟨e, ⟨hes, hdue⟩, he⟩ := h
    obtain ⟨e1, e2, e3⟩ := e
    obtain ⟨rfl, rfl⟩ : e1 = p ∧ e2 = d := by simpa using he
    exact ⟨e3, hes, by simpa [due] using hdue⟩

/-- Witness for C8: after notifying `/a` as a file then as a directory, the
stored flag is the directory one; a due entry is released with its stored
flag and timestamp. -/
theorem c8_dispatch_last_flag_witness :
    dlookup "/a" (on_created (on_created [] "/a" false 0) "/a" true 1) =
        some (true, 1) ∧
      ∃ ts, ("/a", true, ts) ∈ ([("/a", true, (0 : ℤ))] : DState) ∧ 2 ≤ (3 : ℤ) - ts :=
  ⟨c8_dispatch_last_flag.1 [] "/a" false 0 true 1,
   c8_dispatch_last_flag.2 [("/a", true, (0 : ℤ))] 3 "/a" true (by decide)⟩

/-- C8 counterexample: two notifications for the same pending path with
different `is_directory` flags — the release carries the LAST flag
(`true`), not the flag captured at first notification (`false`). -/
theorem c8_first_flag_cex :
    (runD [] [DEvent.notify "/a" false 0, DEvent.notify "/a" true 1,
        DEvent.tick 3]).2 = [(3, "/a", true)] ∧
      (runD [] [DEvent.notify "/a" false 0, DEvent.notify "/a" true 1,
        DEvent.tick 3]).2 ≠ [(3, "/a", false)] := by
  refine ⟨by decide, by decide⟩

/-! ## Debouncer lemmas (per-key view of the pending dict) -/

theorem relCount_append (p : String) (a b : List (ℤ × String × Bool)) :
    relCount p (a ++ b) = relCount p a + relCount p b := by
  simp [relCount, List.filter_append]

theorem filter_key_after_remove (p : String) :
    ∀ s : DState,
      (s.filter (fun e => e.1 != p)).filter (fun e => e.1 == p) = [] := by
  intro s
  induction s with
  | nil => rfl
  | cons e s ih =>
    by_cases h : e.1 = p
    · simp [List.filter_cons, h, ih]
    · simp [List.filter_cons, h, ih]

theorem filter_key_on_created_self (s : DState) (p : String) (d : Bool) (t : ℤ) :
    (on_created s p d t).filter (fun e => e.1 == p) = [(p, d, t)] := by
  simp [on_created, List.filter_cons, filter_key_after_remove]

theorem filter_key_on_created_other (s : DState) (p q : String) (hne : q ≠ p)
    (d : Bool) (t : ℤ) :
    (on_created s q d t).filter (fun e => e.1 == p) =
      s.filter (fun e => e.1 == p) := by
  have key : ∀ s' : DState,
      (s'.filter (fun e => e.1 != q)).filter (fun e => e.1 == p) =
        s'.filter (fun e => e.1 == p) := by
    intro s'
    induction s' with
    | nil => rfl
    | cons e s' ih =>
      by_cases h : e.1 = q
      · have hep : ¬e.1 = p := by
          rw [h]
          exact hne
        simp [List.filter_cons, h, hep, hne, ih]
      · simp [List.filter_cons, h, ih]
  simp [on_created, List.filter_cons, hne, key]

theorem filter_swap (f g : DEntry → Bool) :
    ∀ l : DState, (l.filter f).filter g = (l.filter g).filter f := by
  intro l
  induction l with
  | nil => rfl
  | cons e l ih =>
    by_cases hf : f e = true
    · by_cases hg : g e = true
      · simp [List.filter_cons, hf, hg, ih]
      · simp [List.filter_cons, hf, hg, ih]
    · by_cases hg : g e = true
      · simp [List.filter_cons, hf, hg, ih]
      · simp [List.filter_cons, hf, hg, ih]

theorem relCount_map_time (p : String) (t : ℤ) :
    ∀ l : DState,
      relCount p (l.map (fun e => (t, e.1, e.2.1))) =
        (l.filter (fun e => e.1 == p)).length := by
  intro l
  induction l with
  | nil => rfl
  | cons e l ih =>
    by_cases hk : e.1 == p
    · simp [relCount, List.filter_cons, hk] at ih ⊢
      exact ih
    · simp [relCount, List.filter_cons, hk] at ih ⊢
      exact ih

theorem tick_rel (p : String) (t : ℤ) (s : DState) :
    relCount p ((tickStep s t).2.map (fun e => (t, e.1, e.2))) =
      ((s.filter (fun e => e.1 == p)).filter (due t)).length := by
  have h1 : (tickStep s t).2.map (fun e => (t, e.1, e.2)) =
      (s.filter (due t)).map (fun e => (t, e.1, e.2.1)) := by
    simp [tickStep, List.map_map]
  rw [h1, relCount_map_time, filter_swap]

theorem tick_state (p : String) (t : ℤ) (s : DState) :
    (tickStep s t).1.filter (fun e => e.1 == p) =
      (s.filter (fun e => e.1 == p)).filter (fun e => !due t e) := by
  simp only [tickStep]
  exact filter_swap _ _ s

theorem tick_absent (p : String) (t : ℤ) (s : DState)
    (h : s.filter (fun e => e.1 == p) = []) :
    relCount p ((tickStep s t).2.map (fun e => (t, e.1, e.2))) = 0 ∧
    (tickStep s t).1.filter (fun e => e.1 == p) = [] := by
  rw [tick_rel, tick_state, h]
  exact ⟨rfl, rfl⟩

theorem tick_one_due (p : String) (t : ℤ) (d : Bool) (ts : ℤ) (s : DState)
    (h : s.filter (fun e => e.1 == p) = [(p, d, ts)]) (hd : 2 ≤ t - ts) :
    relCount p ((tickStep s t).2.map (fun e => (t, e.1, e.2))) = 1 ∧
    (tickStep s t).1.filter (fun e => e.1 == p) = [] := by
  rw [tick_rel, tick_state, h]
  have hdue : due t (p, d, ts) = true := by
    simpa [due] using hd
  constructor
  · simp [List.filter_cons, hdue]
  · simp [List.filter_cons, hdue]

theorem tick_one_notdue (p : String) (t : ℤ) (d : Bool) (ts : ℤ) (s : DState)
    (h : s.filter (fun e => e.1 == p) = [(p, d, ts)]) (hd : ¬2 ≤ t - ts) :
    relCount p ((tickStep s t).2.map (fun e => (t, e.1, e.2))) = 0 ∧
    (tickStep s t).1.filter (fun e => e.1 == p) = [(p, d, ts)] := by
  rw [tick_rel, tick_state, h]
  have hdue : due t (p, d, ts) = false := by
    simpa [due] using hd
  constructor
  · simp [List.filter_cons, hdue]
  · simp [List.filter_cons, hdue]

theorem runD_nomore (p : String) :
    ∀ (tr : List DEvent) (s : DState), NoMoreP p tr = true →
      s.filter (fun e => e.1 == p) = [] →
      relCount p (runD s tr).2 = 0 := by
  intro tr
  induction tr with
  | nil => intro s _ _; rfl
  | cons ev rest ih =>
    intro s hn hf
    cases ev with
    | notify q d t =>
      simp only [NoMoreP, Bool.and_eq_true, bne_iff_ne] at hn
      exact ih (on_created s q d t) hn.2
        ((filter_key_on_created_other s p q hn.1 d t).trans hf)
    | tick t =>
      simp only [NoMoreP] at hn
      obtain ⟨h1, h2⟩ := tick_absent p t s hf
      simp only [runD]
      rw [relCount_append, h1, ih _ hn h2]

theorem runD_quiet (p : String) :
    ∀ (tr : List DEvent) (s : DState) (d : Bool) (ts : ℤ),
      Quiet p ts tr = true →
      s.filter (fun e => e.1 == p) = [(p, d, ts)] →
      relCount p (runD s tr).2 = 1 := by
  intro tr
  induction tr with
  | nil =>
    intro s d ts hq _
    simp [Quiet] at hq
  | cons ev rest ih =>
    intro s d ts hq hf
    cases ev with
    | notify q d' t =>
      simp only [Quiet] at hq
      by_cases hqp : q = p
      · subst hqp
        rw [if_pos (by simp)] at hq
        exact ih (on_created s q d' t) d' t hq
          (filter_key_on_created_self s q d' t)
      · rw [if_neg (by simpa using hqp)] at hq
        exact ih (on_created s q d' t) d ts hq
          ((filter_key_on_created_other s p q hqp d' t).trans hf)
    | tick t =>
      simp only [Quiet] at hq
      by_cases hd : 2 ≤ t - ts
      · rw [if_pos hd] at hq
        obtain ⟨h1, h2⟩ := tick_one_due p t d ts s hf hd
        simp only [runD]
        rw [relCount_append, h1, runD_nomore p rest _ hq h2]
      · rw [if_neg hd] at hq
        obtain ⟨h1, h2⟩ := tick_one_notdue p t d ts s hf hd
        simp only [runD]
        rw [relCount_append, h1, ih _ d ts hq h2]

theorem runD_yields (p : String) :
    ∀ (tr : List DEvent) (s : DState),
      YieldsOne p tr = true →
      s.filter (fun e => e.1 == p) = [] →
      relCount p (runD s tr).2 = 1 := by
  intro tr
  induction tr with
  | nil =>
    intro s hy _
    simp [YieldsOne] at hy
  | cons ev rest ih =>
    intro s hy hf
    cases ev with
    | notify q d t =>
      simp only [YieldsOne] at hy
      by_cases hqp : q = p
      · subst hqp
        rw [if_pos (by simp)] at hy
        exact runD_quiet q rest (on_created s q d t) d t hy
          (filter_key_on_created_self s q d t)
      · rw [if_neg (by simpa using hqp)] at hy
        exact ih (on_created s q d t) hy
          ((filter_key_on_created_other s p q hqp d t).trans hf)
    | tick t =>
      simp only [YieldsOne] at hy
      obtain ⟨h1, h2⟩ := tick_absent p t s hf
      simp only [runD]
      rw [relCount_append, h1, ih _ hy h2]

theorem dlookup_eq_none_of_filter (p : String) (s : DState)
    (h : s.filter (fun e => e.1 == p) = []) : dlookup p s = none := by
  induction s with
  | nil => rfl
  | cons e s ih =>
    by_cases hk : e.1 = p
    · simp [List.filter_cons, hk] at h
    · simp only [List.filter_cons] at h
      rw [if_neg (by simpa using hk)] at h
      simp only [dlookup, List.find?]
      rw [show (e.1 == p) = false by simpa using hk]
      exact ih h

/-- C5 (confirmed): each new notification for a pending path resets the
stored timestamp to the notification time; a tick releases a path only
when at least the 2-second quiescence window has elapsed since the stored
(i.e. most recent) notification, and the release removes the entry in the
same locked scan; and along any trace in which every notification for a
path arrives while the path is still pending and a tick at or past the
window eventually occurs with no further notification, the path is
released exactly once. -/
theorem c5_debouncer :
    (∀ (s : DState) (p : String) (d : Bool) (t : ℤ),
      dlookup p (on_created s p d t) = some (d, t)) ∧
    (∀ (s : DState) (t : ℤ) (p : String) (d : Bool),
      (p, d) ∈ (tickStep s t).2 → ∃ ts, (p, d, ts) ∈ s ∧ 2 ≤ t - ts) ∧
    (∀ (s : DState) (t : ℤ) (p : String) (d : Bool) (ts : ℤ),
      s.filter (fun e => e.1 == p) = [(p, d, ts)] → 2 ≤ t - ts →
      (p, d) ∈ (tickStep s t).2 ∧ dlookup p (tickStep s t).1 = none) ∧
    (∀ (p : String) (tr : List DEvent),
      YieldsOne p tr = true → relCount p (runD [] tr).2 = 1) := by
  refine ⟨?_, ?_, ?_, ?_⟩
  · intro s p d t
    simp [dlookup, on_created, List.find?]
  · intro s t p d h
    simp only [tickStep, List.mem_map, List.mem_filter] at h
    obtain ⟨e, ⟨hes, hdue⟩, he⟩ := h
    obtain ⟨e1, e2, e3⟩ := e
    obtain ⟨rfl, rfl⟩ : e1 = p ∧ e2 = d := by simpa using he
    exact ⟨e3, hes, by simpa [due] using hdue⟩
  · intro s t p d ts hf hd
    have hmem : (p, d, ts) ∈ s.filter (fun e => e.1 == p) := by
      rw [hf]
      exact List.mem_singleton.mpr rfl
    have hs : (p, d, ts) ∈ s := (List.mem_filter.mp hmem).1
    constructor
    · simp only [tickStep, List.mem_map]
      refine ⟨(p, d, ts), List.mem_filter.mpr ⟨hs, by simpa [due] using hd⟩, rfl⟩
    · exact dlookup_eq_none_of_filter p _ (tick_one_due p t d ts s hf hd).2
  · intro p tr hy
    exact runD_yields p tr [] hy rfl

/-- Witness for C5: three rapid notifications for `/a` (gaps below the
2-second window), ticks at 1s intervals, release at the first due tick;
exactly one release over the whole trace, with reset and removal
instantiated concretely. -/
theorem c5_debouncer_witness :
    dlookup "/a" (on_created [] "/a" true 5) = some (true, 5) ∧
    (∃ ts, ("/a", false, ts) ∈ ([("/a", false, (0 : ℤ))] : DState) ∧
      2 ≤ (3 : ℤ) - ts) ∧
    (("/a", false) ∈ (tickStep [("/a", false, (0 : ℤ))] 3).2 ∧
      dlookup "/a" (tickStep [("/a", false, (0 : ℤ))] 3).1 = none) ∧
    relCount "/a" (runD []
      [DEvent.notify "/a" false 0, DEvent.tick 1, DEvent.notify "/a" false 1,
       DEvent.tick 2, DEvent.notify "/a" false 2, DEvent.tick 3,
       DEvent.tick 4, DEvent.tick 5]).2 = 1 :=
  ⟨c5_debouncer.1 [] "/a" true 5,
   c5_debouncer.2.1 [("/a", false, (0 : ℤ))] 3 "/a" false (by decide),
   c5_debouncer.2.2.1 [("/a", false, (0 : ℤ))] 3 "/a" false 0 (by decide) (by decide),
   c5_debouncer.2.2.2 "/a"
     [DEvent.notify "/a" false 0, DEvent.tick 1, DEvent.notify "/a" false 1,
      DEvent.tick 2, DEvent.notify "/a" false 2, DEvent.tick 3,
      DEvent.tick 4, DEvent.tick 5] (by decide)⟩

/-! ## Lemmas about `os.path.splitext` on planned names (for C1) -/

theorem lastIdx_append_none {c : Char} {l2 : List Char}
    (h : lastIdx c l2 = none) (l1 : List Char) :
    lastIdx c (l1 ++ l2) = lastIdx c l1 := by
  induction l1 with
  | nil => simpa using h
  | cons a l1 ih =>
    simp only [List.cons_append, lastIdx, List.append_eq]
    rw [ih]

theorem lastIdx_append_some {c : Char} {l2 : List Char} {i : Nat}
    (h : lastIdx c l2 = some i) (l1 : List Char) :
    lastIdx c (l1 ++ l2) = some (l1.length + i) := by
  induction l1 with
  | nil => simpa using h
  | cons a l1 ih =>
    simp only [List.cons_append, lastIdx, List.append_eq]
    rw [ih]
    simp only [List.length_cons, Option.some.injEq]
    omega

theorem lastIdx_none_of_not_mem {c : Char} :
    ∀ {l : List Char}, c ∉ l → lastIdx c l = none := by
  intro l
  induction l with
  | nil => intro _; rfl
  | cons a l ih =>
    intro h
    simp only [List.mem_cons, not_or] at h
    simp only [lastIdx, ih h.2]
    rw [if_neg (by simpa using fun he => h.1 he.symm)]

theorem lastIdx_lt_length {c : Char} :
    ∀ {l : List Char} {i : Nat}, lastIdx c l = some i → i < l.length := by
  intro l
  induction l with
  | nil => intro i h; simp [lastIdx] at h
  | cons a l ih =>
    intro i h
    simp only [lastIdx] at h
    cases hl : lastIdx c l with
    | some j =>
      rw [hl] at h
      have hj := ih hl
      have hji : j + 1 = i := by simpa using h
      simp only [List.length_cons]
      omega
    | none =>
      rw [hl] at h
      by_cases hac : (a == c) = true
      · rw [if_pos hac] at h
        have h0i : (0 : Nat) = i := by simpa using h
        simp only [List.length_cons]
        omega
      · rw [if_neg hac] at h
        exact absurd h (by simp)

theorem splitext_append_ext (stem' : List Char) (c0 : Char) (w : List Char)
    (hc1 : c0 ≠ '.') (hc2 : c0 ≠ '/') (hw1 : '.' ∉ w) (hw2 : '/' ∉ w) :
    splitextList ((stem' ++ [c0]) ++ '.' :: w) = (stem' ++ [c0], '.' :: w) := by
  have hnd : lastIdx '.' ('.' :: w) = some 0 := by
    simp [lastIdx, lastIdx_none_of_not_mem hw1]
  have hdot : lastIdx '.' ((stem' ++ [c0]) ++ '.' :: w) = some (stem'.length + 1) := by
    rw [lastIdx_append_some hnd]
    simp
  have hslashw : lastIdx '/' ('.' :: w) = none := by
    apply lastIdx_none_of_not_mem
    simp only [List.mem_cons, not_or]
    exact ⟨by decide, hw2⟩
  have hslashc : lastIdx '/' [c0] = none := by
    apply lastIdx_none_of_not_mem
    simp only [List.mem_singleton]
    exact fun h => hc2 h.symm
  have hslash : lastIdx '/' ((stem' ++ [c0]) ++ '.' :: w) = lastIdx '/' stem' := by
    rw [lastIdx_append_none hslashw, lastIdx_append_none hslashc]
  have hlen : stem'.length + 1 = (stem' ++ [c0]).length := by simp
  have htake : ((stem' ++ [c0]) ++ '.' :: w).take (stem'.length + 1) = stem' ++ [c0] := by
    rw [hlen, List.take_left]
  have hdrop : ((stem' ++ [c0]) ++ '.' :: w).drop (stem'.length + 1) = '.' :: w := by
    rw [hlen, List.drop_left]
  have hpair : (((stem' ++ [c0]) ++ '.' :: w).take (stem'.length + 1),
      ((stem' ++ [c0]) ++ '.' :: w).drop (stem'.length + 1)) =
      (stem' ++ [c0], '.' :: w) := by
    rw [htake, hdrop]
  unfold splitextList
  rw [hdot, hslash]
  cases hs0 : lastIdx '/' stem' with
  | none =>
    have hany : ((((stem' ++ [c0]) ++ '.' :: w).drop 0).take (stem'.length + 1 - 0)).any
        (fun c => c != '.') = true := by
      simp only [List.drop_zero, Nat.sub_zero, htake, List.any_append]
      simp [hc1]
    simp only []
    rw [if_pos ⟨Nat.zero_le _, hany⟩]
    exact hpair
  | some s0 =>
    have hs0lt : s0 < stem'.length := lastIdx_lt_length hs0
    have hfile : s0 + 1 ≤ stem'.length + 1 := by omega
    have hdropfi : ((stem' ++ [c0]) ++ '.' :: w).drop (s0 + 1) =
        stem'.drop (s0 + 1) ++ (c0 :: '.' :: w) := by
      have hform : (stem' ++ [c0]) ++ '.' :: w = stem' ++ (c0 :: '.' :: w) := by
        simp
      rw [hform, List.drop_append_eq_append_drop]
      have : s0 + 1 - stem'.length = 0 := by omega
      rw [this]
      rfl
    have hlen2 : stem'.length + 1 - (s0 + 1) = (stem'.drop (s0 + 1)).length + 1 := by
      simp only [List.length_drop]
      omega
    have hany : ((((stem' ++ [c0]) ++ '.' :: w).drop (s0 + 1)).take
        (stem'.length + 1 - (s0 + 1))).any (fun c => c != '.') = true := by
      rw [hdropfi, hlen2]
      rw [show stem'.drop (s0 + 1) ++ (c0 :: '.' :: w) =
        stem'.drop (s0 + 1) ++ ((c0 :: '.' :: w).take 1 ++ ('.' :: w)) from by simp]
      rw [show (stem'.drop (s0 + 1)).length + 1 =
        (stem'.drop (s0 + 1)).length + ([c0] : List Char).length from by simp]
      rw [show stem'.drop (s0 + 1) ++ ((c0 :: '.' :: w).take 1 ++ '.' :: w) =
        (stem'.drop (s0 + 1) ++ [c0]) ++ '.' :: w from by simp]
      rw [show (stem'.drop (s0 + 1)).length + ([c0] : List Char).length =
        (stem'.drop (s0 + 1) ++ [c0]).length from by simp]
      rw [List.take_left]
      simp [hc1]
    simp only []
    rw [if_pos ⟨hfile, hany⟩]
    exact hpair

/-- Transfer an ends-safely decomposition across a left concatenation. -/
theorem ends_decomp_concat (A B : String)
    (h : ∃ l c, B.data = l ++ [c] ∧ c ≠ '.' ∧ c ≠ '/') :
    ∃ l c, (A ++ B).data = l ++ [c] ∧ c ≠ '.' ∧ c ≠ '/' := by
  obtain ⟨l, c, hB, h1, h2⟩ := h
  exact ⟨A.data ++ l, c, by rw [String.data_append, hB, List.append_assoc], h1, h2⟩

theorem ends_decomp_of_endsSafe (B : String) (h : endsSafe B = true) :
    ∃ l c, B.data = l ++ [c] ∧ c ≠ '.' ∧ c ≠ '/' := by
  unfold endsSafe at h
  cases hl : B.data.getLast? with
  | none =>
    rw [hl] at h
    cases h
  | some c =>
    rw [hl] at h
    simp only [Bool.and_eq_true, bne_iff_ne] at h
    have hne : B.data ≠ [] := by
      intro h0
      rw [h0] at hl
      simp at hl
    have hg : B.data.getLast hne = c := by
      have := List.getLast?_eq_getLast B.data hne
      rw [this] at hl
      exact Option.some.inj hl
    refine ⟨B.data.dropLast, c, ?_, h.1, h.2⟩
    rw [← hg]
    exact (List.dropLast_append_getLast hne).symm

theorem zfill_endsSafe : ∀ n, n < 100 → endsSafe (pyZfill 2 (Nat.repr n)) = true := by
  decide

/-- The stem of every planned file name (everything before the extension)
ends in a character that is neither a dot nor a slash, so `os.path.splitext`
recovers the extension unchanged. -/
theorem newFilename_stem_decomp (d : MediaInfo) (ext : String)
    (hs : ∀ n, d.season = some n → n < 100)
    (he : ∀ n, d.episode = some n → n < 100) :
    ∃ stem' c0, (newFilename d ext).data = (stem' ++ [c0]) ++ ext.data ∧
      c0 ≠ '.' ∧ c0 ≠ '/' := by
  have htag : resolution_tag d = "" ∨
      ∃ C : String, resolution_tag d = C ++ "]" := by
    cases hres : d.resolution with
    | none => exact Or.inl (by simp [resolution_tag, hres])
    | some r =>
      by_cases hr : r = ""
      · exact Or.inl (by simp [resolution_tag, hres, hr])
      · exact Or.inr ⟨" - [" ++ r, by simp [resolution_tag, hres, hr]⟩
  have hstem : ∀ A : String,
      (∃ l c, A.data = l ++ [c] ∧ c ≠ '.' ∧ c ≠ '/') →
      ∃ l c, (A ++ resolution_tag d).data = l ++ [c] ∧ c ≠ '.' ∧ c ≠ '/' := by
    intro A hA
    rcases htag with ht | ⟨C, ht⟩
    · rw [ht, String.append_empty]
      exact hA
    · rw [ht, ← String.append_assoc]
      exact ends_decomp_concat _ "]" ⟨[], ']', rfl, by decide, by decide⟩
  have hz : ∀ n, n < 100 →
      ∃ l c, (pyZfill 2 (Nat.repr n)).data = l ++ [c] ∧ c ≠ '.' ∧ c ≠ '/' :=
    fun n hn => ends_decomp_of_endsSafe _ (zfill_endsSafe n hn)
  have hs1 : seasonOr1 d.season < 100 := seasonOr1_lt d.season hs
  have hfin : ∀ P : String,
      (∃ l c, P.data = l ++ [c] ∧ c ≠ '.' ∧ c ≠ '/') →
      (newFilename d ext = P ++ ext) →
      ∃ stem' c0, (newFilename d ext).data = (stem' ++ [c0]) ++ ext.data ∧
        c0 ≠ '.' ∧ c0 ≠ '/' := by
    intro P hP hEq
    obtain ⟨l, c, hPd, h1, h2⟩ := hP
    refine ⟨l, c, ?_, h1, h2⟩
    rw [hEq, String.data_append, hPd]
  by_cases hm : d.type = "movie"
  · exact hfin _
      (hstem (d.title ++ "（" ++ d.year ++ "）")
        (ends_decomp_concat _ "）" ⟨[], '）', rfl, by decide, by decide⟩))
      (by unfold newFilename; rw [if_pos hm])
  · by_cases hep : pyTruthy d.episode = true
    · have hez : d.episode.getD 0 < 100 := by
        cases h0 : d.episode with
        | none => simp
        | some e => simpa using he e h0
      exact hfin _
        (hstem (d.title ++ "（" ++ d.year ++ "） - S" ++
            pyZfill 2 (Nat.repr (seasonOr1 d.season)) ++ "E" ++
            pyZfill 2 (Nat.repr (d.episode.getD 0)))
          (ends_decomp_concat _ _ (hz _ hez)))
        (by unfold newFilename; rw [if_neg hm, if_pos hep])
    · exact hfin _
        (hstem (d.title ++ "（" ++ d.year ++ "） - Season " ++
            pyZfill 2 (Nat.repr (seasonOr1 d.season)))
          (ends_decomp_concat _ _ (hz _ hs1)))
        (by unfold newFilename; rw [if_neg hm, if_neg hep])

/-- C1 (amended): the rename planner depends only on the descriptor and the
extension of the input name; when the extension is an ordinary one
(`"." ++ w` with `w` free of dots and slashes), `os.path.splitext` of the
planned name recovers it, so re-running the planner on its own output with
the SAME descriptor is a fixed point — and the directory plan is a fixed
point unconditionally.  (With the descriptor RE-EXTRACTED from the
canonical name, idempotence fails: see the counterexample.) -/
theorem c1_plan_fixed_point (name : String) (d : MediaInfo) (w : List Char)
    (hext : (splitext name).2.data = '.' :: w)
    (hw1 : '.' ∉ w) (hw2 : '/' ∉ w)
    (hs : ∀ n, d.season = some n → n < 100)
    (he : ∀ n, d.episode = some n → n < 100) :
    planName (planName name d false) d false = planName name d false ∧
    planName (planName name d true) d true = planName name d true := by
  refine ⟨?_, rfl⟩
  obtain ⟨stem', c0, hdata, hc1, hc2⟩ :=
    newFilename_stem_decomp d (splitext name).2 hs he
  rw [hext] at hdata
  have hsp : (splitext (newFilename d (splitext name).2)).2 = (splitext name).2 := by
    have h2 : splitextList (newFilename d (splitext name).2).data =
        (stem' ++ [c0], '.' :: w) := by
      rw [hdata]
      exact splitext_append_ext stem' c0 w hc1 hc2 hw1 hw2
    show String.mk (splitextList (newFilename d (splitext name).2).data).2 =
      (splitext name).2
    rw [h2]
    exact String.ext hext.symm
  show newFilename d (splitext (newFilename d (splitext name).2)).2 =
    newFilename d (splitext name).2
  rw [hsp]

/-- Witness for C1 at the concrete movie name `Hero.2020.mp4` (whose
extension is `.mp4`). -/
theorem c1_plan_fixed_point_witness :
    planName (planName "Hero.2020.mp4" ⟨"Hero", "2020", "movie", none, none, none⟩
        false) ⟨"Hero", "2020", "movie", none, none, none⟩ false =
      planName "Hero.2020.mp4" ⟨"Hero", "2020", "movie", none, none, none⟩ false ∧
    planName (planName "Hero.2020.mp4" ⟨"Hero", "2020", "movie", none, none, none⟩
        true) ⟨"Hero", "2020", "movie", none, none, none⟩ true =
      planName "Hero.2020.mp4" ⟨"Hero", "2020", "movie", none, none, none⟩ true :=
  c1_plan_fixed_point "Hero.2020.mp4" ⟨"Hero", "2020", "movie", none, none, none⟩
    ['m', 'p', '4'] (by decide) (by decide) (by decide)
    (fun n h => by cases h) (fun n h => by cases h)

/-- C1 counterexample: re-extraction from a canonical name keeps the
trailing full-width parenthesis in the title (the separator-strip class of
`extract_media_info` does not contain `（`), so re-planning with the
re-extracted descriptor yields a DIFFERENT name — both for the movie shape
and for the TV `Season NN` shape, where the bare `01` before the extension
is additionally re-read as an episode number, changing the shape to
`S01E01`. -/
theorem c1_replan_cex :
    extract_media_info "Hero.2020.mp4" =
        some ⟨"Hero", "2020", "movie", none, none, none⟩ ∧
      planName "Hero.2020.mp4" ⟨"Hero", "2020", "movie", none, none, none⟩ false =
        "Hero（2020）.mp4" ∧
      extract_media_info "Hero（2020）.mp4" =
        some ⟨"Hero（", "2020", "movie", none, none, none⟩ ∧
      planName "Hero（2020）.mp4" ⟨"Hero（", "2020", "movie", none, none, none⟩ false =
        "Hero（（2020）.mp4" ∧
      ("Hero（（2020）.mp4" : String) ≠ "Hero（2020）.mp4" ∧
      extract_media_info "Title（2020） - Season 01.mp4" =
        some ⟨"Title（", "2020", "tv", some 1, some 1, none⟩ ∧
      planName "Title（2020） - Season 01.mp4"
          ⟨"Title（", "2020", "tv", some 1, some 1, none⟩ false =
        "Title（（2020） - S01E01.mp4" ∧
      ("Title（（2020） - S01E01.mp4" : String) ≠ "Title（2020） - Season 01.mp4" := by
  refine ⟨by decide, by decide, by decide, by decide, by decide, by decide,
    by decide, by decide⟩

end EmbyRenamer
